import Mathlib

/-!
Shallow embedding of the astralix source (src/src/main.rs): a bank of 12
square-wave oscillators rendered by an audio callback, a key→oscillator
note router, and the main loop's rolling frame-rate window and frame
pacing.  Sample values, phases, gains and timestamps are modelled as
rational numbers; Rust's floating-point remainder `x % 1.0` is modelled
by the exact truncated remainder `fmod1`.
-/

/-- `NUM_SQUAREWAVES` from the source: the oscillator bank has 12 slots. -/
abbrev NUM_SQUAREWAVES : ℕ := 12

/-- `VOLUME` from the source: the fixed active gain, `0.01`. -/
def VOLUME : ℚ := 0.01

/-- The `SquareWave` struct: per-oscillator phase, phase increment and gain
(the source calls the gain array `volume`). -/
@[ext]
structure SquareWave where
  phase : Fin NUM_SQUAREWAVES → ℚ
  phase_inc : Fin NUM_SQUAREWAVES → ℚ
  volume : Fin NUM_SQUAREWAVES → ℚ

/-- `SquareWave::new`: all phases, increments and gains start at 0. -/
def SquareWave.new : SquareWave :=
  { phase := fun _ => 0, phase_inc := fun _ => 0, volume := fun _ => 0 }

/-- `SquareWave::set_freq`: the nine assignments
`self.phase_inc[i] = pitch_i / freq` for `i = 0..8`, in source order
(the innermost update is the first assignment).  Slots 9–11 are not
assigned. -/
def SquareWave.set_freq (sw : SquareWave) (freq : ℚ) : SquareWave :=
  { sw with phase_inc :=
      Function.update (Function.update (Function.update (Function.update
      (Function.update (Function.update (Function.update (Function.update
      (Function.update sw.phase_inc 0 (349.24 / freq))
        1 (392.00 / freq)) 2 (440.00 / freq)) 3 (493.92 / freq))
        4 (523.28 / freq)) 5 (587.36 / freq)) 6 (659.28 / freq))
        7 (698.48 / freq)) 8 (784.00 / freq) }

/-- Rust's `x % 1.0` on floats: the remainder truncated toward zero, so it
keeps the sign of the dividend.  In the program it is only applied to
non-negative values, where it agrees with `Int.fract`. -/
def fmod1 (x : ℚ) : ℚ := if 0 ≤ x then x - ⌊x⌋ else x - ⌈x⌉

/-- One phase advance, `self.phase[sw] = (self.phase[sw] + self.phase_inc[sw]) % 1.0`,
for a single oscillator. -/
def phaseStep (inc p : ℚ) : ℚ := fmod1 (p + inc)

/-- The bipolar contribution of oscillator `i`:
`if self.phase[sw] <= 0.5 { self.volume[sw] } else { -self.volume[sw] }`. -/
def bip (sw : SquareWave) (i : Fin NUM_SQUAREWAVES) : ℚ :=
  if sw.phase i ≤ 0.5 then sw.volume i else -(sw.volume i)

/-- The in-loop phase update of oscillator `i` only. -/
def advanceOsc (sw : SquareWave) (i : Fin NUM_SQUAREWAVES) : SquareWave :=
  { sw with phase := Function.update sw.phase i (phaseStep (sw.phase_inc i) (sw.phase i)) }

/-- The body of the inner `for sw in 0..NUM_SQUAREWAVES` loop of `callback`:
accumulate the oscillator's bipolar contribution, then advance its phase. -/
def renderStep (acc : ℚ × SquareWave) (i : Fin NUM_SQUAREWAVES) : ℚ × SquareWave :=
  (acc.1 + bip acc.2 i, advanceOsc acc.2 i)

/-- One output sample of `callback`: start from `*channel = 0.0` and run the
inner loop over all 12 oscillators; returns the sample and the new state. -/
def renderSample (sw : SquareWave) : ℚ × SquareWave :=
  (List.finRange NUM_SQUAREWAVES).foldl renderStep (0, sw)

/-- `callback` on a buffer of `n` samples: render each sample in turn,
returning the written buffer and the final oscillator state. -/
def callback : ℕ → SquareWave → List ℚ × SquareWave
  | 0, sw => ([], sw)
  | n + 1, sw =>
    let s := renderSample sw
    let rest := callback n s.2
    (s.1 :: rest.1, rest.2)

/-- Advancing every oscillator's phase by its increment, modulo 1. -/
def advanceAll (sw : SquareWave) : SquareWave :=
  { sw with phase := fun i => phaseStep (sw.phase_inc i) (sw.phase i) }

/-- The mixed sample: the sum over all 12 oscillators of their bipolar
contributions at the current state. -/
def mixedSample (sw : SquareWave) : ℚ :=
  ((List.finRange NUM_SQUAREWAVES).map (bip sw)).sum

/-- The SDL keycodes the program inspects: the nine digit keys, escape, and
a stand-in for every other keycode. -/
inductive Keycode where
  | num1 | num2 | num3 | num4 | num5 | num6 | num7 | num8 | num9
  | escape | other
deriving DecidableEq

/-- `NUM_MAP` from the source: the digit keys mapped to oscillators 0–8. -/
def NUM_MAP : List (Keycode × Fin NUM_SQUAREWAVES) :=
  [(.num1, 0), (.num2, 1), (.num3, 2), (.num4, 3), (.num5, 4),
   (.num6, 5), (.num7, 6), (.num8, 7), (.num9, 8)]

/-- Whether a keycode is one of the nine digit keys matched by the
`Keycode::Num1 | ... | Keycode::Num9` patterns. -/
def Keycode.isNum : Keycode → Bool
  | .num1 | .num2 | .num3 | .num4 | .num5 | .num6 | .num7 | .num8 | .num9 => true
  | _ => false

/-- The SDL events the event loop distinguishes: quit, key down and key up,
the latter two carrying the keycode and the auto-repeat flag. -/
inductive Event where
  | quit
  | keyDown (keycode : Keycode) (rep : Bool)
  | keyUp (keycode : Keycode) (rep : Bool)

/-- The repeat flag of an event (`Quit` carries none). -/
def Event.isRep : Event → Bool
  | .quit => false
  | .keyDown _ r => r
  | .keyUp _ r => r

/-- The `for (key, num) in NUM_MAP { if keycode == key { sw.volume[num] = v } }`
loop of the event handler. -/
def setMapped (keycode : Keycode) (v : ℚ) (vol : Fin NUM_SQUAREWAVES → ℚ) :
    Fin NUM_SQUAREWAVES → ℚ :=
  NUM_MAP.foldl (fun vol kv => if keycode = kv.1 then Function.update vol kv.2 v else vol) vol

/-- The effect of one polled event on the oscillator state, following the
source's `match event`: quit and key-down-escape leave the state unchanged
(they only break the loop); a non-repeat key-down on a digit key runs the
`NUM_MAP` loop writing `VOLUME`; a non-repeat key-up on a digit key runs it
writing `0.00`; everything else falls to the `_ => {}` arm. -/
def handleEvent (e : Event) (sw : SquareWave) : SquareWave :=
  match e with
  | .quit => sw
  | .keyDown k rep =>
    if k = .escape then sw
    else if k.isNum && !rep then { sw with volume := setMapped k VOLUME sw.volume }
    else sw
  | .keyUp k rep =>
    if k.isNum && !rep then { sw with volume := setMapped k 0.00 sw.volume }
    else sw

/-- One step of the rolling frame-rate window: `fps_vec.push_front(v)`
followed by `if fps_vec.len() > 10 { fps_vec.pop_back(); }`, with the
front of the deque as the head of the list. -/
def tickWindow (w : List ℚ) (v : ℚ) : List ℚ :=
  let w' := v :: w
  if 10 < w'.length then w'.dropLast else w'

/-- The reported frame rate: `fps_vec.iter().sum() / fps_vec.len()`. -/
def reportFps (w : List ℚ) : ℚ := w.sum / (w.length : ℚ)

/-- The window contents after pushing the values of `vs` in order into an
initially empty window. -/
def windowAfter (vs : List ℚ) : List ℚ := vs.foldl tickWindow []

/-- The pacing wait of the main loop:
`if fin_stamp < curr_stamp + interval { sleep(curr_stamp + interval - fin_stamp) }`,
and no sleep (a zero wait) otherwise. -/
def waitDur (frameStart finStamp interval : ℚ) : ℚ :=
  if finStamp < frameStart + interval then frameStart + interval - finStamp else 0

/-- The successive denominators `curr_stamp - prev_stamp` evaluated by the
frame-rate loop, starting from the seed `prev_stamp = Instant::now()` taken
just before the loop, with `prev_stamp = curr_stamp` updated each tick. -/
def denoms : ℚ → List ℚ → List ℚ
  | _, [] => []
  | prev, t :: ts => (t - prev) :: denoms t ts

/-- Modelled from the spec (no such code exists in the source): a validating
`configure` that rejects a non-positive sample rate as a configuration
error instead of computing the divisions. -/
def set_freq_validated (freq : ℚ) (sw : SquareWave) : Option SquareWave :=
  if 0 < freq then some (sw.set_freq freq) else none

/-- The oscillator state of the C10 scenario: sample rate 44100 Hz
configured, and the 440 Hz oscillator (index 2) given the fixed gain. -/
def C10state : SquareWave :=
  let st := SquareWave.new.set_freq 44100
  { st with volume := Function.update st.volume 2 VOLUME }


/-! Concrete evaluation of the embedding (used in witnesses and in the
scenario claims) requires unfolding the rational arithmetic operations,
which Batteries seals by default. -/

set_option allowUnsafeReducibility true in
attribute [semireducible] Rat.add Rat.mul Rat.inv Rat.sub Rat.div Rat.ofScientific

/-! ### Render callback lemmas -/

lemma fmod1_of_nonneg (x : ℚ) (h : 0 ≤ x) : fmod1 x = Int.fract x := by
  rw [fmod1, if_pos h, Int.fract]

lemma advanceOsc_phase (sw : SquareWave) (i : Fin NUM_SQUAREWAVES) :
    (advanceOsc sw i).phase = Function.update sw.phase i (phaseStep (sw.phase_inc i) (sw.phase i)) := rfl

lemma advanceOsc_phase_inc (sw : SquareWave) (i : Fin NUM_SQUAREWAVES) :
    (advanceOsc sw i).phase_inc = sw.phase_inc := rfl

lemma advanceOsc_volume (sw : SquareWave) (i : Fin NUM_SQUAREWAVES) :
    (advanceOsc sw i).volume = sw.volume := rfl

lemma bip_advanceOsc_ne (sw : SquareWave) (i j : Fin NUM_SQUAREWAVES) (h : j ≠ i) :
    bip (advanceOsc sw i) j = bip sw j := by
  simp [bip, advanceOsc_phase, advanceOsc_volume, Function.update_noteq h]

lemma foldl_renderStep (l : List (Fin NUM_SQUAREWAVES)) :
    l.Nodup → ∀ (sw : SquareWave) (a : ℚ),
      ((l.foldl renderStep (a, sw)).1 = a + (l.map (bip sw)).sum)
    ∧ ((l.foldl renderStep (a, sw)).2.phase = fun j =>
          if j ∈ l then phaseStep (sw.phase_inc j) (sw.phase j) else sw.phase j)
    ∧ ((l.foldl renderStep (a, sw)).2.phase_inc = sw.phase_inc)
    ∧ ((l.foldl renderStep (a, sw)).2.volume = sw.volume) := by
  induction l with
  | nil =>
    intro _ sw a
    refine ⟨by simp, ?_, rfl, rfl⟩
    funext j
    simp
  | cons i l ih =>
    intro hnd sw a
    have hil : i ∉ l := (List.nodup_cons.mp hnd).1
    have hnd' : l.Nodup := (List.nodup_cons.mp hnd).2
    have hfold : (i :: l).foldl renderStep (a, sw)
        = l.foldl renderStep (a + bip sw i, advanceOsc sw i) := rfl
    obtain ⟨h1, h2, h3, h4⟩ := ih hnd' (advanceOsc sw i) (a + bip sw i)
    refine ⟨?_, ?_, ?_, ?_⟩
    · rw [hfold, h1,
        List.map_congr_left (fun j hj => bip_advanceOsc_ne sw i j (fun e => hil (e ▸ hj)))]
      simp [add_assoc]
    · rw [hfold, h2]
      funext j
      by_cases hj : j ∈ l
      · have hji : j ≠ i := fun e => hil (e ▸ hj)
        simp [hj, List.mem_cons.mpr (Or.inr hj), advanceOsc_phase, advanceOsc_phase_inc,
          Function.update_noteq hji]
      · by_cases hji : j = i
        · subst hji
          simp [hj, advanceOsc_phase, advanceOsc_phase_inc]
        · simp [hj, hji, advanceOsc_phase, advanceOsc_phase_inc, Function.update_noteq hji]
    · rw [hfold, h3, advanceOsc_phase_inc]
    · rw [hfold, h4, advanceOsc_volume]

lemma renderSample_eq (sw : SquareWave) :
    renderSample sw = (mixedSample sw, advanceAll sw) := by
  obtain ⟨h1, h2, h3, h4⟩ :=
    foldl_renderStep (List.finRange NUM_SQUAREWAVES) (List.nodup_finRange _) sw 0
  have hfst : (renderSample sw).1 = mixedSample sw := by
    rw [renderSample, h1, mixedSample, zero_add]
  have hsnd : (renderSample sw).2 = advanceAll sw := by
    ext j
    · rw [renderSample, h2]
      simp [advanceAll, List.mem_finRange]
    · rw [renderSample, h3]
      rfl
    · rw [renderSample, h4]
      rfl
  calc renderSample sw = ((renderSample sw).1, (renderSample sw).2) := rfl
    _ = (mixedSample sw, advanceAll sw) := by rw [hfst, hsnd]

lemma callback_snd (n : ℕ) : ∀ sw : SquareWave, (callback n sw).2 = advanceAll^[n] sw := by
  induction n with
  | zero => intro sw; rfl
  | succ n ih =>
    intro sw
    show (callback n (renderSample sw).2).2 = _
    rw [renderSample_eq, ih, Function.iterate_succ_apply]

lemma callback_fst (n : ℕ) : ∀ sw : SquareWave,
    (callback n sw).1 = (List.range n).map (fun k => mixedSample (advanceAll^[k] sw)) := by
  induction n with
  | zero => intro sw; rfl
  | succ n ih =>
    intro sw
    show (renderSample sw).1 :: (callback n (renderSample sw).2).1 = _
    rw [renderSample_eq, ih, List.range_succ_eq_map, List.map_cons, List.map_map]
    refine congrArg₂ _ rfl ?_
    refine List.map_congr_left fun k _ => ?_
    simp [Function.iterate_succ_apply]

lemma bip_of_volume_zero (sw : SquareWave) (i : Fin NUM_SQUAREWAVES)
    (h : sw.volume i = 0) : bip sw i = 0 := by
  rw [bip, h]
  simp

/-- C1: for every buffer of `n` samples and every oscillator state, the
render callback writes each output sample as the sum over all 12
oscillators of a bipolar value — `+gain` when that oscillator's phase is
`≤ 0.5`, `-gain` otherwise, so a zero gain contributes exactly 0 — and then
advances every oscillator's phase to `(phase + phase_inc) mod 1` regardless
of its gain. -/
theorem C1_render_mix_and_advance (sw : SquareWave) (n : ℕ) :
    renderSample sw = (mixedSample sw, advanceAll sw)
  ∧ (∀ i, bip sw i = if sw.phase i ≤ 0.5 then sw.volume i else -(sw.volume i))
  ∧ (∀ i, sw.volume i = 0 → bip sw i = 0)
  ∧ (∀ i, (advanceAll sw).phase i = fmod1 (sw.phase i + sw.phase_inc i))
  ∧ (advanceAll sw).phase_inc = sw.phase_inc
  ∧ (advanceAll sw).volume = sw.volume
  ∧ (callback n sw).1 = (List.range n).map (fun k => mixedSample (advanceAll^[k] sw))
  ∧ (callback n sw).2 = advanceAll^[n] sw :=
  ⟨renderSample_eq sw, fun _ => rfl, fun i h => bip_of_volume_zero sw i h,
   fun _ => rfl, rfl, rfl, callback_fst n sw, callback_snd n sw⟩

theorem C1_render_mix_and_advance_witness :
    SquareWave.new.volume 0 = 0
  ∧ bip SquareWave.new 0 = 0
  ∧ renderSample SquareWave.new = (mixedSample SquareWave.new, advanceAll SquareWave.new) :=
  ⟨rfl, (C1_render_mix_and_advance SquareWave.new 1).2.2.1 0 rfl,
   (C1_render_mix_and_advance SquareWave.new 1).1⟩

/-! ### Phase-accumulator arithmetic -/

lemma fract_fract_add (a b : ℚ) : Int.fract (Int.fract a + b) = Int.fract (a + b) := by
  have h : Int.fract a + b = a + b - (⌊a⌋ : ℤ) := by
    rw [Int.fract]
    ring
  rw [h, Int.fract_sub_int]

/-- C8: for every `n ≥ 0`, starting phase `p0 ∈ [0,1)` and non-negative
phase increment, after `n` render advances the phase equals
`(p0 + n·phase_inc) mod 1`. -/
theorem C8_phase_after_n_advances (n : ℕ) (p0 inc : ℚ)
    (h0 : 0 ≤ p0) (h1 : p0 < 1) (h2 : 0 ≤ inc) :
    (phaseStep inc)^[n] p0 = Int.fract (p0 + n * inc) := by
  induction n with
  | zero => simpa using (Int.fract_eq_self.mpr ⟨h0, h1⟩).symm
  | succ n ih =>
    rw [Function.iterate_succ_apply', ih, phaseStep,
      fmod1_of_nonneg _ (add_nonneg (Int.fract_nonneg _) h2), fract_fract_add]
    congr 1
    push_cast
    ring

theorem C8_phase_after_n_advances_witness :
    (0 ≤ (1/2 : ℚ)) ∧ ((1/2 : ℚ) < 1) ∧ (0 ≤ (1/4 : ℚ))
  ∧ (phaseStep (1/4))^[3] (1/2 : ℚ) = Int.fract ((1/2 : ℚ) + (3 : ℕ) * (1/4)) :=
  ⟨by norm_num, by norm_num, by norm_num,
   C8_phase_after_n_advances 3 (1/2) (1/4) (by norm_num) (by norm_num) (by norm_num)⟩

/-- C9: every oscillator's phase starts at 0; assuming a non-negative
increment, a render advance keeps the phase in `[0,1)`; and neither
`set_freq` nor any key event modifies any phase. -/
theorem C9_phase_invariant :
    (∀ i, SquareWave.new.phase i = 0)
  ∧ (∀ p inc : ℚ, 0 ≤ p → 0 ≤ inc → 0 ≤ phaseStep inc p ∧ phaseStep inc p < 1)
  ∧ (∀ (sw : SquareWave) (freq : ℚ), (sw.set_freq freq).phase = sw.phase)
  ∧ (∀ (e : Event) (sw : SquareWave), (handleEvent e sw).phase = sw.phase) := by
  refine ⟨fun _ => rfl, ?_, fun _ _ => rfl, ?_⟩
  · intro p inc hp hinc
    rw [phaseStep, fmod1_of_nonneg _ (add_nonneg hp hinc)]
    exact ⟨Int.fract_nonneg _, Int.fract_lt_one _⟩
  · intro e sw
    cases e with
    | quit => rfl
    | keyDown k r =>
      simp only [handleEvent]
      split_ifs <;> rfl
    | keyUp k r =>
      simp only [handleEvent]
      split_ifs <;> rfl

theorem C9_phase_invariant_witness :
    (0 ≤ (1/2 : ℚ)) ∧ (0 ≤ (1/4 : ℚ))
  ∧ 0 ≤ phaseStep (1/4) (1/2 : ℚ) ∧ phaseStep (1/4) (1/2 : ℚ) < 1 := by
  have h := C9_phase_invariant.2.1 (1/2) (1/4) (by norm_num) (by norm_num)
  exact ⟨by norm_num, by norm_num, h.1, h.2⟩

/-! ### Configuration -/

lemma set_freq_phase_inc_high (sw : SquareWave) (r : ℚ) (i : Fin NUM_SQUAREWAVES)
    (hi : 9 ≤ (i : ℕ)) : (sw.set_freq r).phase_inc i = sw.phase_inc i := by
  have h : ∀ k : Fin NUM_SQUAREWAVES, (k : ℕ) ≤ 8 → i ≠ k := by
    intro k hk e
    rw [e] at hi
    omega
  simp only [SquareWave.set_freq]
  rw [Function.update_noteq (h 8 (by decide)), Function.update_noteq (h 7 (by decide)),
      Function.update_noteq (h 6 (by decide)), Function.update_noteq (h 5 (by decide)),
      Function.update_noteq (h 4 (by decide)), Function.update_noteq (h 3 (by decide)),
      Function.update_noteq (h 2 (by decide)), Function.update_noteq (h 1 (by decide)),
      Function.update_noteq (h 0 (by decide))]

/-- C2: for every sample rate `r > 0`, `set_freq` gives each of
oscillators 0–8 the phase increment `pitch / r` from the fixed pitch
table, leaves slots 9–11 untouched — so on the freshly constructed bank
they keep `phase_inc = 0` — and a zero increment never advances a phase
in `[0,1)`. -/
theorem C2_set_freq (r : ℚ) (sw : SquareWave) (hr : 0 < r) :
    ((sw.set_freq r).phase_inc 0 = 349.24 / r)
  ∧ ((sw.set_freq r).phase_inc 1 = 392.00 / r)
  ∧ ((sw.set_freq r).phase_inc 2 = 440.00 / r)
  ∧ ((sw.set_freq r).phase_inc 3 = 493.92 / r)
  ∧ ((sw.set_freq r).phase_inc 4 = 523.28 / r)
  ∧ ((sw.set_freq r).phase_inc 5 = 587.36 / r)
  ∧ ((sw.set_freq r).phase_inc 6 = 659.28 / r)
  ∧ ((sw.set_freq r).phase_inc 7 = 698.48 / r)
  ∧ ((sw.set_freq r).phase_inc 8 = 784.00 / r)
  ∧ (∀ i : Fin NUM_SQUAREWAVES, 9 ≤ (i : ℕ) → (sw.set_freq r).phase_inc i = sw.phase_inc i)
  ∧ (∀ i : Fin NUM_SQUAREWAVES, 9 ≤ (i : ℕ) → (SquareWave.new.set_freq r).phase_inc i = 0)
  ∧ (∀ p : ℚ, 0 ≤ p → p < 1 → phaseStep 0 p = p) := by
  refine ⟨?_, ?_, ?_, ?_, ?_, ?_, ?_, ?_, ?_, ?_, ?_, ?_⟩
  case _ => simp [SquareWave.set_freq, Function.update]
  case _ => simp [SquareWave.set_freq, Function.update]
  case _ => simp [SquareWave.set_freq, Function.update]
  case _ => simp [SquareWave.set_freq, Function.update]
  case _ => simp [SquareWave.set_freq, Function.update]
  case _ => simp [SquareWave.set_freq, Function.update]
  case _ => simp [SquareWave.set_freq, Function.update]
  case _ => simp [SquareWave.set_freq, Function.update]
  case _ => simp [SquareWave.set_freq, Function.update]
  case _ => exact fun i hi => set_freq_phase_inc_high sw r i hi
  case _ => exact fun i hi => set_freq_phase_inc_high SquareWave.new r i hi
  case _ =>
    intro p h0 h1
    rw [phaseStep, add_zero, fmod1_of_nonneg _ h0, Int.fract_eq_self.mpr ⟨h0, h1⟩]

theorem C2_set_freq_witness :
    (0 < (2 : ℚ))
  ∧ (SquareWave.new.set_freq 2).phase_inc 0 = 349.24 / 2
  ∧ (SquareWave.new.set_freq 2).phase_inc 2 = 440.00 / 2
  ∧ (SquareWave.new.set_freq 2).phase_inc 9 = 0
  ∧ phaseStep 0 (1/2 : ℚ) = 1/2 := by
  obtain ⟨h0, _, h2, _, _, _, _, _, _, _, h9, hstep⟩ := C2_set_freq 2 SquareWave.new (by norm_num)
  exact ⟨by norm_num, h0, h2, h9 9 (by decide), hstep (1/2) (by norm_num) (by norm_num)⟩

/-- C6 counterexample: the claim that `set_freq` validates the sample rate
and rejects a rate of 0 as a configuration error is false: at rate 0 the
spec-modelled validating configure errs, while the code's `set_freq`
returns a state. -/
theorem C6_counterexample :
    some (SquareWave.new.set_freq 0) ≠ set_freq_validated 0 SquareWave.new := by
  rw [set_freq_validated, if_neg (by norm_num)]
  exact Option.some_ne_none _

/-- C6 (amended): `set_freq` performs no validation of the sample rate: for
every non-positive rate the spec-modelled validating configure rejects, yet
the code's `set_freq` still returns a state, touching only `phase_inc`
(phase and gains unchanged) — no configuration error exists in the code. -/
theorem C6_no_rate_validation (r : ℚ) (sw : SquareWave) (h : r ≤ 0) :
    set_freq_validated r sw = none
  ∧ (sw.set_freq r).phase = sw.phase
  ∧ (sw.set_freq r).volume = sw.volume := by
  refine ⟨?_, rfl, rfl⟩
  rw [set_freq_validated, if_neg (not_lt.mpr h)]

theorem C6_no_rate_validation_witness :
    ((0 : ℚ) ≤ 0)
  ∧ set_freq_validated 0 SquareWave.new = none
  ∧ (SquareWave.new.set_freq 0).phase = SquareWave.new.phase
  ∧ (SquareWave.new.set_freq 0).volume = SquareWave.new.volume := by
  obtain ⟨h1, h2, h3⟩ := C6_no_rate_validation 0 SquareWave.new le_rfl
  exact ⟨le_rfl, h1, h2, h3⟩

/-! ### Note router -/

lemma vol_off : (0.00 : ℚ) = 0 := by norm_num

/-- C3: a non-repeat key-down on a mapped key sets exactly that
oscillator's gain to `VOLUME`; a non-repeat key-up on a mapped key sets it
to exactly 0; a repeat-flagged event changes nothing; events for unmapped
keys change nothing. -/
theorem C3_router (sw : SquareWave) :
    (∀ (k : Keycode) (j : Fin NUM_SQUAREWAVES), (k, j) ∈ NUM_MAP →
        handleEvent (.keyDown k false) sw
          = { sw with volume := Function.update sw.volume j VOLUME }
      ∧ handleEvent (.keyUp k false) sw
          = { sw with volume := Function.update sw.volume j 0 })
  ∧ (∀ e : Event, e.isRep = true → handleEvent e sw = sw)
  ∧ (∀ (k : Keycode) (rep : Bool), (∀ j, (k, j) ∉ NUM_MAP) →
        handleEvent (.keyDown k rep) sw = sw ∧ handleEvent (.keyUp k rep) sw = sw) := by
  refine ⟨?_, ?_, ?_⟩
  · intro k j hkj
    cases k <;> simp +decide [NUM_MAP] at hkj <;> subst hkj <;>
      exact ⟨by simp +decide [handleEvent, Keycode.isNum, setMapped, NUM_MAP, Function.update, vol_off],
             by simp +decide [handleEvent, Keycode.isNum, setMapped, NUM_MAP, Function.update, vol_off]⟩
  · intro e he
    cases e with
    | quit => rfl
    | keyDown k r =>
      cases he
      simp only [handleEvent, Bool.not_true, Bool.and_false]
      split_ifs <;> first | rfl | contradiction
    | keyUp k r =>
      cases he
      simp only [handleEvent, Bool.not_true, Bool.and_false]
      split_ifs <;> first | rfl | contradiction
  · intro k rep hun
    cases k <;>
      first
      | exact absurd (by decide) (hun 0)
      | exact absurd (by decide) (hun 1)
      | exact absurd (by decide) (hun 2)
      | exact absurd (by decide) (hun 3)
      | exact absurd (by decide) (hun 4)
      | exact absurd (by decide) (hun 5)
      | exact absurd (by decide) (hun 6)
      | exact absurd (by decide) (hun 7)
      | exact absurd (by decide) (hun 8)
      | exact ⟨by simp [handleEvent, Keycode.isNum], by simp [handleEvent, Keycode.isNum]⟩

theorem C3_router_witness :
    ((Keycode.num1, (0 : Fin NUM_SQUAREWAVES)) ∈ NUM_MAP)
  ∧ handleEvent (.keyDown .num1 false) SquareWave.new
      = { SquareWave.new with volume := Function.update SquareWave.new.volume 0 VOLUME }
  ∧ (Event.keyDown .num1 true).isRep = true
  ∧ handleEvent (.keyDown .num1 true) SquareWave.new = SquareWave.new
  ∧ (∀ j, (Keycode.escape, j) ∉ NUM_MAP)
  ∧ handleEvent (.keyUp .escape false) SquareWave.new = SquareWave.new :=
  ⟨by decide,
   ((C3_router SquareWave.new).1 .num1 0 (by decide)).1,
   rfl,
   (C3_router SquareWave.new).2.1 (.keyDown .num1 true) rfl,
   by decide,
   ((C3_router SquareWave.new).2.2 .escape false (by decide)).2⟩

/-! ### Frame-rate window -/

lemma tickWindow_eq (w : List ℚ) (v : ℚ) (h : w.length ≤ 10) :
    tickWindow w v = (v :: w).take 10 := by
  rw [tickWindow]
  by_cases h10 : 10 < (v :: w).length
  · rw [if_pos h10, List.dropLast_eq_take]
    have : (v :: w).length = 11 := by
      simp only [List.length_cons] at h10 ⊢
      omega
    rw [this]
  · rw [if_neg h10]
    exact (List.take_of_length_le (by omega)).symm

lemma take_append_take (a b : List ℚ) (n : ℕ) :
    (a ++ b.take n).take n = (a ++ b).take n := by
  rw [List.take_append_eq_append_take, List.take_append_eq_append_take, List.take_take,
    Nat.min_eq_left (Nat.sub_le n a.length)]

lemma foldl_tickWindow (vs : List ℚ) :
    ∀ w : List ℚ, w.length ≤ 10 → vs.foldl tickWindow w = (vs.reverse ++ w).take 10 := by
  induction vs with
  | nil =>
    intro w h
    simp [List.take_of_length_le h]
  | cons v vs ih =>
    intro w h
    rw [List.foldl_cons, tickWindow_eq w v h,
      ih _ (by simp only [List.length_take]; omega),
      take_append_take, List.reverse_cons, List.append_assoc, List.cons_append,
      List.nil_append]

/-- C4: after any sequence of pushes into the initially empty window, the
window holds exactly the `k = min (number of pushes) 10` most recent values
(the oldest is evicted when an 11th arrives), and the reported frame rate
is the arithmetic mean (sum divided by length) of exactly those values. -/
theorem C4_window_rolling_mean (vs : List ℚ) :
    windowAfter vs = vs.reverse.take 10
  ∧ (windowAfter vs).length = min vs.length 10
  ∧ reportFps (windowAfter vs)
      = (vs.reverse.take 10).sum / ((vs.reverse.take 10).length : ℚ) := by
  have h : windowAfter vs = vs.reverse.take 10 := by
    rw [windowAfter, foldl_tickWindow vs [] (by simp), List.append_nil]
  refine ⟨h, ?_, by rw [h, reportFps]⟩
  rw [h, List.length_take, List.length_reverse, Nat.min_comm]

/-! ### Frame pacing -/

/-- C5: the pacing wait is never negative; when the elapsed time
`finStamp - frameStart` meets or exceeds the target interval there is no
sleep (a zero wait, with no cross-frame compensation), and otherwise the
sleep is exactly the remaining difference. -/
theorem C5_wait_nonneg (frameStart finStamp interval : ℚ) :
    0 ≤ waitDur frameStart finStamp interval
  ∧ (interval ≤ finStamp - frameStart → waitDur frameStart finStamp interval = 0)
  ∧ (finStamp - frameStart < interval →
      waitDur frameStart finStamp interval = interval - (finStamp - frameStart)) := by
  refine ⟨?_, ?_, ?_⟩
  · rw [waitDur]
    split_ifs with h
    · linarith
    · exact le_refl 0
  · intro h
    rw [waitDur, if_neg (by linarith)]
  · intro h
    rw [waitDur, if_pos (by linarith)]
    ring

theorem C5_wait_nonneg_witness :
    (0 ≤ waitDur 0 2 8)
  ∧ ((2 : ℚ) - 0 < 8) ∧ waitDur 0 2 8 = 8 - ((2 : ℚ) - 0)
  ∧ ((8 : ℚ) ≤ 20 - 0) ∧ waitDur 0 20 8 = 0 :=
  ⟨(C5_wait_nonneg 0 2 8).1,
   by norm_num,
   (C5_wait_nonneg 0 2 8).2.2 (by norm_num),
   by norm_num,
   (C5_wait_nonneg 0 20 8).2.1 (by norm_num)⟩

/-! ### Frame-rate denominators -/

/-- C7 counterexample: the claim that `1 / (now - previous_now)` is never
evaluated with a zero denominator is false for the code: if the clock
returns the seed timestamp again on the first tick, the evaluated
denominator is 0 (the code seeds `prev_stamp` with a real timestamp and
performs no further guard). -/
theorem C7_counterexample : ¬ (∀ d ∈ denoms 0 [0], d ≠ 0) := by
  intro h
  exact h 0 (by rw [denoms]; exact List.mem_singleton.mpr (by norm_num)) rfl

/-- C7 (amended): the code seeds `prev_stamp` with the timestamp taken just
before the loop, so every tick has a defined prior timestamp, and whenever
the clock strictly advances between observations every evaluated
denominator is positive — but equal consecutive timestamps are not guarded
against. -/
theorem C7_seeded_denominators (t0 : ℚ) (ts : List ℚ)
    (h : List.Chain (· < ·) t0 ts) : ∀ d ∈ denoms t0 ts, 0 < d := by
  induction ts generalizing t0 with
  | nil => intro d hd; cases hd
  | cons t ts ih =>
    rw [List.chain_cons] at h
    intro d hd
    rw [denoms] at hd
    rcases List.mem_cons.mp hd with h1 | h2
    · rw [h1]
      linarith [h.1]
    · exact ih t h.2 d h2

theorem C7_seeded_denominators_witness :
    List.Chain (· < ·) (0 : ℚ) [1, 2] ∧ ∀ d ∈ denoms (0 : ℚ) [1, 2], 0 < d := by
  have hc : List.Chain (· < ·) (0 : ℚ) [1, 2] := by
    rw [List.chain_cons, List.chain_cons]
    exact ⟨by norm_num, by norm_num, List.Chain.nil⟩
  exact ⟨hc, C7_seeded_denominators 0 [1, 2] hc⟩

/-! ### The 440 Hz / 44100 Hz scenario -/

set_option maxRecDepth 400000 in
/-- C10 counterexample: in the 44100 Hz / 440 Hz scenario the 51st rendered
sample is still `+gain` (the phase at that sample is 22000/44100 ≤ 0.5),
not `-gain` as the claim states. -/
theorem C10_counterexample :
    (callback 51 C10state).1.getD 50 0 = VOLUME ∧ (VOLUME : ℚ) ≠ -VOLUME := by
  refine ⟨by decide, by decide⟩

set_option maxRecDepth 400000 in
/-- C10 (amended): with sample rate 44100 Hz, the 440 Hz oscillator gets
`phase_inc = 440/44100 ≈ 0.00997732`; from phase 0, after 50 advances the
phase is `22000/44100 ≈ 0.498866`, still `≤ 0.5`; the 50th and 51st
rendered samples are `+gain`, and it is the 52nd sample that flips to
`-gain` once the phase exceeds 0.5. -/
theorem C10_scenario :
    C10state.phase_inc 2 = 440 / 44100
  ∧ |C10state.phase_inc 2 - 0.00997732| < 1 / 100000000
  ∧ (phaseStep (C10state.phase_inc 2))^[50] 0 = 22000 / 44100
  ∧ |(phaseStep (C10state.phase_inc 2))^[50] 0 - 0.498866| < 1 / 1000000
  ∧ (phaseStep (C10state.phase_inc 2))^[50] 0 ≤ 0.5
  ∧ 0 < VOLUME
  ∧ (callback 52 C10state).1.getD 49 0 = VOLUME
  ∧ (callback 52 C10state).1.getD 50 0 = VOLUME
  ∧ (callback 52 C10state).1.getD 51 0 = -VOLUME := by
  refine ⟨by decide, by decide, by decide, by decide, by decide, by decide,
    by decide, by decide, by decide⟩
